import Mathlib

/-!
# The `cube` storage client

A shallow embedding of `cube/config.go` and `cube/cubeClient.go` together with
the properties of the client that its specification states.

Go strings are byte sequences, so a `string` is a list of bytes here.  The
standard-library functions the client calls (`strings.TrimRight`,
`url.QueryEscape`, `fmt.Sprintf`) and the ones needed to read a URL back
(`url.QueryUnescape`, `url.ParseQuery`, `Values.Get`) are embedded after the Go
standard library.  The HTTP transport (`resty`) and the file system are external
collaborators: they appear as explicit state and as an environment.
-/

namespace Cube

/-! ## Strings -/

/-- A Go `byte`. -/
abbrev Byte := Fin 256

/-- A Go `string`: a sequence of bytes. -/
abbrev GoString := List Byte

/-- The byte of an ASCII character. -/
def byteOf (c : Char) : Byte := Fin.ofNat c.toNat

/-- The UTF-8 encoding of a character, as the Go compiler stores it. -/
def utf8 (c : Char) : GoString :=
  if c.toNat < 128 then [Fin.ofNat c.toNat]
  else if c.toNat < 2048 then
    [Fin.ofNat (192 + c.toNat / 64), Fin.ofNat (128 + c.toNat % 64)]
  else if c.toNat < 65536 then
    [Fin.ofNat (224 + c.toNat / 4096), Fin.ofNat (128 + c.toNat / 64 % 64),
     Fin.ofNat (128 + c.toNat % 64)]
  else
    [Fin.ofNat (240 + c.toNat / 262144), Fin.ofNat (128 + c.toNat / 4096 % 64),
     Fin.ofNat (128 + c.toNat / 64 % 64), Fin.ofNat (128 + c.toNat % 64)]

/-- A string literal of the source, as a Go string. -/
def str (s : String) : GoString := s.toList.flatMap utf8

/-- Go `strings.Contains(s, substr)`. -/
def Contains (s substr : GoString) : Prop := substr <:+: s

/-- Go `strings.HasSuffix(s, suffix)`. -/
def HasSuffix (s suffix : GoString) : Prop := suffix <:+ s

/-- Go `strings.TrimRight(s, cutset)` for a cutset of ASCII bytes: the trailing
bytes of `s` that occur in `cutset` are removed. -/
def TrimRight (s cutset : GoString) : GoString :=
  s.rdropWhile (fun b => decide (b ∈ cutset))

/-- Go `strings.Cut(s, sep)` for a one-byte separator: the text before the first
`sep`, the text after it, and whether `sep` was found. -/
def Cut (sep : Byte) : GoString → GoString × GoString × Bool
  | [] => ([], [], false)
  | c :: s =>
    if c = sep then ([], s, true)
    else ((c :: (Cut sep s).1), (Cut sep s).2.1, (Cut sep s).2.2)

/-! ## `fmt.Sprintf` -/

/-- An operand of `fmt.Sprintf`. -/
inductive FmtArg where
  | s (v : GoString)
  | b (v : Bool)
  deriving DecidableEq

/-- The rendering of one operand under verb `verb` (`%s` or `%v`). -/
def fmtOperand (verb : Byte) : FmtArg → GoString
  | .s v => v
  | .b v =>
    if verb = byteOf 'v' then (if v then str "true" else str "false")
    else str "%!" ++ [verb] ++ str "(bool=" ++ (if v then str "true" else str "false") ++ str ")"

/-- Go `fmt.Sprintf(format, args...)` for the directives the client uses: `%s`
and `%v` with an operand present.  Any other byte of the format is copied. -/
def Sprintf : GoString → List FmtArg → GoString
  | [], _ => []
  | c :: f, args =>
    if c = byteOf '%' then
      match f, args with
      | verb :: f2, a :: rest =>
        if verb = byteOf 's' ∨ verb = byteOf 'v' then fmtOperand verb a ++ Sprintf f2 rest
        else c :: verb :: Sprintf f2 (a :: rest)
      | verb :: f2, [] => c :: verb :: Sprintf f2 []
      | [], _ => [c]
    else c :: Sprintf f args

/-! ## `net/url`: escaping -/

/-- Go `url.shouldEscape(c, encodeQueryComponent)`: only ASCII letters, digits
and `-`, `_`, `.`, `~` are left alone. -/
def shouldEscape (c : Byte) : Bool :=
  if (97 ≤ c.val ∧ c.val ≤ 122) ∨ (65 ≤ c.val ∧ c.val ≤ 90) ∨ (48 ≤ c.val ∧ c.val ≤ 57) then false
  else if c = byteOf '-' ∨ c = byteOf '_' ∨ c = byteOf '.' ∨ c = byteOf '~' then false
  else true

/-- The digits of `url.upperhex`. -/
def upperhex : GoString := str "0123456789ABCDEF"

/-- The hexadecimal digit `upperhex[n]`. -/
def hexDigit (n : Nat) : Byte := upperhex.getD n 0

/-- Go `url.QueryEscape(s)` (`escape(s, encodeQueryComponent)`): a space becomes
`+`, every other byte that must be escaped becomes `%XX`. -/
def QueryEscape : GoString → GoString
  | [] => []
  | c :: s =>
    if shouldEscape c then
      if c = byteOf ' ' then byteOf '+' :: QueryEscape s
      else byteOf '%' :: hexDigit (c.val / 16) :: hexDigit (c.val % 16) :: QueryEscape s
    else c :: QueryEscape s

/-- Go `url.ishex`. -/
def ishex (c : Byte) : Bool :=
  (48 ≤ c.val ∧ c.val ≤ 57) ∨ (97 ≤ c.val ∧ c.val ≤ 102) ∨ (65 ≤ c.val ∧ c.val ≤ 70)

/-- Go `url.unhex`. -/
def unhex (c : Byte) : Nat :=
  if 48 ≤ c.val ∧ c.val ≤ 57 then c.val - 48
  else if 97 ≤ c.val ∧ c.val ≤ 102 then c.val - 97 + 10
  else if 65 ≤ c.val ∧ c.val ≤ 70 then c.val - 65 + 10
  else 0

/-- The first loop of `url.unescape(s, encodeQueryComponent)`: it counts the
`%` escapes and notes a `+`, and fails with the offending text (at most three
bytes) at a malformed escape. -/
def unescapeScan : GoString → Except GoString (Nat × Bool)
  | [] => .ok (0, false)
  | c :: s =>
    if c = byteOf '%' then
      match s with
      | a :: b :: rest =>
        if ishex a ∧ ishex b then
          match unescapeScan rest with
          | .ok (n, hasPlus) => .ok (n + 1, hasPlus)
          | .error e => .error e
        else .error [c, a, b]
      | _ => .error (c :: s)
    else if c = byteOf '+' then
      match unescapeScan s with
      | .ok (n, _) => .ok (n, true)
      | .error e => .error e
    else unescapeScan s

/-- The second loop of `url.unescape(s, encodeQueryComponent)`: `%XX` becomes
the byte `unhex(X)<<4 | unhex(X)`, `+` becomes a space. -/
def unescapeDecode : GoString → GoString
  | [] => []
  | c :: s =>
    if c = byteOf '%' then
      match s with
      | a :: b :: rest => Fin.ofNat (unhex a * 16 + unhex b) :: unescapeDecode rest
      | _ => []
    else if c = byteOf '+' then byteOf ' ' :: unescapeDecode s
    else c :: unescapeDecode s

/-- Go `url.QueryUnescape(s)`: the inverse of `QueryEscape`; the error carries
the malformed escape. -/
def QueryUnescape (s : GoString) : Except GoString GoString :=
  match unescapeScan s with
  | .error e => .error e
  | .ok (n, hasPlus) =>
    if n = 0 ∧ hasPlus = false then .ok s else .ok (unescapeDecode s)

/-! ## `net/url`: reading a query string -/

/-- Go `url.Values`, as the sequence of `(key, value)` additions in order. -/
abbrev Values := List (GoString × GoString)

/-- Go `Values.Get(key)`: the first value of `key`, or `""`. -/
def Values.Get (v : Values) (key : GoString) : GoString :=
  match v.find? (fun p => decide (p.1 = key)) with
  | some p => p.2
  | none => []

/-- The `&`-separated fields that the loop of `url.parseQuery` visits, one per
`strings.Cut(query, "&")`. -/
def queryFields : GoString → List GoString
  | [] => [[]]
  | c :: s =>
    if c = byteOf '&' then [] :: queryFields s
    else
      match queryFields s with
      | f :: fs => (c :: f) :: fs
      | [] => [[c]]

/-- The body of the loop of `url.parseQuery` over the fields: a field with a
`;`, an empty field and a field whose key or value does not unescape are
skipped; every other field adds `key = value`. -/
def parseFields : List GoString → Values
  | [] => []
  | field :: rest =>
    if byteOf ';' ∈ field then parseFields rest
    else if field = [] then parseFields rest
    else
      match QueryUnescape (Cut (byteOf '=') field).1,
            QueryUnescape (Cut (byteOf '=') field).2.1 with
      | .ok key, .ok value => (key, value) :: parseFields rest
      | _, _ => parseFields rest

/-- Go `url.ParseQuery(query)` (Go 1.17 and later, where `;` is no separator):
the values it returns, as `URL.Query()` reads them, the error dropped. -/
def ParseQuery (query : GoString) : Values := parseFields (queryFields query)

/-- The `RawQuery` of a URL as `url.Parse` splits it when it accepts the URL:
the fragment after the first `#` is cut off, and the query is what follows the
first `?`. -/
def RawQuery (rawURL : GoString) : GoString :=
  (Cut (byteOf '?') (Cut (byteOf '#') rawURL).1).2.1

/-! ## `cube/config.go` -/

/-- Go `time.Duration`: a number of nanoseconds. -/
abbrev Duration := Int

/-- Go `time.Second`. -/
def Second : Duration := 1000000000

/-- The struct `Config`. -/
structure Config where
  Enable : Bool
  BaseURL : GoString
  APIKey : GoString
  DefaultBucketKey : GoString
  DefaultBucketName : GoString
  Timeout : Duration
  deriving DecidableEq

/-- The variable `DefaultConfig`. -/
def DefaultConfig : Config :=
  { Enable := false, BaseURL := [], APIKey := [], DefaultBucketKey := [],
    DefaultBucketName := [], Timeout := 10 * Second }

/-- The struct `CubeError`. -/
structure CubeError where
  Code : Int
  Msg : GoString
  deriving DecidableEq

/-- The factory `NewCubeError`. -/
def NewCubeError (code : Int) (message : GoString) : CubeError :=
  { Code := code, Msg := message }

/-- An operand of `fmt.Errorf`, kept with its verb: a string for `%s`, an
integer for `%d`, the text of a wrapped error for `%w`, a value for `%v`. -/
inductive ErrArg where
  | s (v : GoString)
  | d (v : Int)
  | w (err : GoString)
  | v (obj : GoString)
  deriving DecidableEq

/-- A Go `error` value of the client: `errors.New(msg)`, `fmt.Errorf(format,
args...)` with its operands kept apart, or a `*CubeError`. -/
inductive GoError where
  | New (msg : GoString)
  | Errorf (format : GoString) (args : List ErrArg)
  | Cube (e : CubeError)
  deriving DecidableEq

/-! ## The transport (`resty`) and the file system -/

/-- A Go `map[string]string`, as an association list with distinct keys. -/
abbrev StringMap := List (GoString × GoString)

/-- The map lookup `m[k]`. -/
def StringMap.get (m : StringMap) (k : GoString) : Option GoString :=
  (m.find? (fun p => decide (p.1 = k))).map (fun p => p.2)

/-- The map assignment `m[k] = v`. -/
def StringMap.set (m : StringMap) (k v : GoString) : StringMap :=
  if m.any (fun p => decide (p.1 = k)) then
    m.map (fun p => if p.1 = k then (k, v) else p)
  else m ++ [(k, v)]

/-- The settings of a `resty.Client` that the client touches. -/
structure RestyClient where
  BaseURL : GoString
  Timeout : Duration
  Header : StringMap
  deriving DecidableEq

/-- The transport `resty.New()` returns, not yet configured. -/
def resty.New : RestyClient := { BaseURL := [], Timeout := 0, Header := [] }

/-- The method `resty.Client.SetBaseURL`. -/
def RestyClient.SetBaseURL (c : RestyClient) (url : GoString) : RestyClient :=
  { c with BaseURL := TrimRight url (str "/") }

/-- The method `resty.Client.SetTimeout`. -/
def RestyClient.SetTimeout (c : RestyClient) (timeout : Duration) : RestyClient :=
  { c with Timeout := timeout }

/-- The method `resty.Client.SetHeader`. -/
def RestyClient.SetHeader (c : RestyClient) (header value : GoString) : RestyClient :=
  { c with Header := c.Header.set header value }

/-- The `data` member of `UploadResponse`. -/
structure UploadData where
  ObjectKey : GoString
  URL : GoString
  FileID : GoString
  deriving DecidableEq

/-- The struct `UploadResponse`. -/
structure UploadResponse where
  Code : Int
  Msg : GoString
  Data : UploadData
  deriving DecidableEq

/-- The zero value of `UploadResponse` (`var result UploadResponse`). -/
def UploadResponse.zero : UploadResponse :=
  { Code := 0, Msg := [], Data := { ObjectKey := [], URL := [], FileID := [] } }

/-- A request as the client builds it on `c.Resty.R()`. -/
structure Request where
  Method : GoString
  URL : GoString
  FormData : StringMap
  QueryParam : StringMap
  File : Option (GoString × GoString × GoString)
  deriving DecidableEq

/-- A `resty.Response` as the client reads it: `StatusCode()`, `Status()`,
`String()`, `Error()` (absent when nil), and the envelope the transport decoded
into the `SetResult` target (absent when it decoded nothing). -/
structure Response where
  StatusCode : Int
  Status : GoString
  Body : GoString
  Error : Option GoString
  Result : Option UploadResponse
  deriving DecidableEq

/-- The method `resty.Response.IsSuccess`: status code 200 to 299. -/
def Response.IsSuccess (r : Response) : Bool :=
  decide (r.StatusCode > 199) && decide (r.StatusCode < 300)

/-- The method `resty.Response.IsError`: status code 400 and above. -/
def Response.IsError (r : Response) : Bool := decide (r.StatusCode > 399)

/-- The world outside the client: `os.Open` (the file's content, or the
error), `filepath.Base`, and the transport executing a request (a response, or
the transport error). -/
structure Env where
  Open : GoString → Except GoString GoString
  Base : GoString → GoString
  Execute : RestyClient → Request → Except GoString Response

/-- What a call does to the outside world, in order. -/
inductive Event where
  | Open (path : GoString)
  | Close (path : GoString)
  | Execute (req : Request)
  deriving DecidableEq

/-! ## `cube/cubeClient.go` -/

/-- The struct `CubeClient`. -/
structure CubeClient where
  Config : Config
  Resty : RestyClient
  deriving DecidableEq

/-- The outcome of `NewCubeClient`: the returned handle and error, the caller's
configuration and the supplied transport as the call leaves them (both are
passed by pointer), and how many transports `resty.New()` created. -/
structure NewCubeClientResult where
  client : Option CubeClient
  err : Option GoError
  cfg : Option Config
  httpClient : Option RestyClient
  created : Nat
  deriving DecidableEq

/-- The constructor `NewCubeClient(cfg, httpClient)`. -/
def NewCubeClient (cfg : Option Config) (httpClient : Option RestyClient) :
    NewCubeClientResult :=
  match cfg with
  | none =>
    { client := none, err := some (.New (str "cube: cfg 不能为空")),
      cfg := none, httpClient := httpClient, created := 0 }
  | some cfg0 =>
    if cfg0.BaseURL = [] then
      { client := none, err := some (.New (str "cube: BaseURL 未配置")),
        cfg := some cfg0, httpClient := httpClient, created := 0 }
    else
      let cfg1 : Config :=
        if cfg0.Timeout ≤ 0 then { cfg0 with Timeout := 10 * Second } else cfg0
      let timeoutDuration := cfg1.Timeout
      let client : RestyClient :=
        match httpClient with
        | some h => h
        | none => resty.New
      let client :=
        ((client.SetBaseURL (TrimRight cfg1.BaseURL (str "/"))).SetTimeout
          timeoutDuration).SetHeader (str "Key") cfg1.APIKey
      { client := some { Config := cfg1, Resty := client }, err := none,
        cfg := some cfg1, httpClient := httpClient.map (fun _ => client),
        created := if httpClient.isSome then 0 else 1 }

/-- The local `form` of `UploadFile`. -/
def uploadForm (bucketName location : GoString) (convertWebp useUuid : Bool) : StringMap :=
  let form : StringMap :=
    [(str "bucket", bucketName),
     (str "convert_webp", Sprintf (str "%v") [.b convertWebp]),
     (str "use_uuid", Sprintf (str "%v") [.b useUuid])]
  if location ≠ [] then form.set (str "location") location else form

/-- The request `UploadFile` posts: the local `req` with `/api/upload`. -/
def uploadRequest (c : CubeClient) (env : Env) (localPath location file : GoString)
    (convertWebp useUuid : Bool) : Request :=
  { Method := str "POST", URL := str "/api/upload",
    FormData := uploadForm c.Config.DefaultBucketName location convertWebp useUuid,
    QueryParam := [],
    File := some (str "file", env.Base localPath, file) }

/-- The method `UploadFile`: the returned object key and error, and what the
call did to the outside world. -/
def CubeClient.UploadFile (c : CubeClient) (env : Env) (localPath location : GoString)
    (convertWebp useUuid : Bool) : (GoString × Option GoError) × List Event :=
  let bucketName := c.Config.DefaultBucketName
  if bucketName = [] then
    (([], some (.New (str "默认存储桶名称未配置，请检查 CubeConfig"))), [])
  else
    match env.Open localPath with
    | .error err =>
      (([], some (.Errorf (str "无法打开本地文件: %w") [.w err])), [.Open localPath])
    | .ok file =>
      let req := uploadRequest c env localPath location file convertWebp useUuid
      let trace := [Event.Open localPath, Event.Execute req, Event.Close localPath]
      match env.Execute c.Resty req with
      | .error err => (([], some (.Errorf (str "cube 客户端请求失败: %w") [.w err])), trace)
      | .ok resp =>
        let result := resp.Result.getD UploadResponse.zero
        if resp.IsError then
          (([], some (.Errorf (str "cube HTTP 错误: %s (Status: %d). Response Body: %s")
            [.s resp.Status, .d resp.StatusCode, .s resp.Body])), trace)
        else if resp.IsSuccess ∧ resp.Error ≠ none then
          (([], some (.Errorf (str "cube 响应体JSON解析失败: %v. Response Body: %s")
            [.v (resp.Error.getD []), .s resp.Body])), trace)
        else if result.Code ≠ 200 then
          (([], some (.Cube (NewCubeError result.Code result.Msg))), trace)
        else
          let objKey := result.Data.ObjectKey
          if objKey = [] then
            (([], some (.Cube (NewCubeError 200500 (str "上传成功但 ObjectKey 缺失")))), trace)
          else ((objKey, none), trace)

/-- The request `DeleteFile` issues. -/
def deleteRequest (c : CubeClient) (objectKey : GoString) : Request :=
  { Method := str "DELETE", URL := str "/api/delete", FormData := [],
    QueryParam := [(str "bucket", c.Config.DefaultBucketName), (str "object_key", objectKey)],
    File := none }

/-- The method `DeleteFile`: the returned error, and what the call did to the
outside world. -/
def CubeClient.DeleteFile (c : CubeClient) (env : Env) (objectKey : GoString) :
    Option GoError × List Event :=
  let bucketName := c.Config.DefaultBucketName
  if bucketName = [] then
    (some (.New (str "默认存储桶名称未配置，请检查 CubeConfig")), [])
  else
    let req := deleteRequest c objectKey
    match env.Execute c.Resty req with
    | .error err =>
      (some (.Errorf (str "cube 客户端删除请求失败: %w") [.w err]), [.Execute req])
    | .ok resp =>
      let result := resp.Result.getD UploadResponse.zero
      if resp.IsError then
        (some (.Errorf (str "cube HTTP 错误: %s (Status: %d)")
          [.s resp.Status, .d resp.StatusCode]), [.Execute req])
      else if result.Code ≠ 200 then
        (some (.Cube (NewCubeError result.Code result.Msg)), [.Execute req])
      else (none, [.Execute req])

/-- The method `GetFileURL`. -/
def CubeClient.GetFileURL (c : CubeClient) (objectKey : GoString) (thumbnail : Bool) :
    GoString :=
  let encodedKey := QueryEscape objectKey
  let baseURL := TrimRight c.Config.BaseURL (str "/")
  let finalURL := Sprintf (str "%s/api/file?bucket=%s&object_key=%s")
    [.s baseURL, .s c.Config.DefaultBucketName, .s encodedKey]
  if thumbnail then finalURL ++ str "&thumbnail=true" else finalURL

/-! ## Sample inputs -/

/-- A configuration with a base URL, a bucket name and no timeout. -/
def sampleConfig : Config :=
  { Enable := true, BaseURL := str "http://cube.test/", APIKey := str "k",
    DefaultBucketKey := str "bk", DefaultBucketName := str "photos", Timeout := 0 }

/-- The client `NewCubeClient` builds from `sampleConfig`. -/
def sampleClient : CubeClient :=
  { Config := { sampleConfig with Timeout := 10 * Second },
    Resty := { BaseURL := str "http://cube.test", Timeout := 10 * Second,
               Header := [(str "Key", str "k")] } }

/-- A world in which every file opens (empty) and the transport answers every
request with `resp`. -/
def answering (resp : Response) : Env :=
  { Open := fun _ => .ok [], Base := fun p => p, Execute := fun _ _ => .ok resp }

/-- A `200 OK` response whose body decoded into `result`. -/
def okResponse (result : UploadResponse) : Response :=
  { StatusCode := 200, Status := str "200 OK", Body := [], Error := none,
    Result := some result }

/-- The envelope `{code: 403, msg: "forbidden"}`. -/
def forbidden : UploadResponse :=
  { Code := 403, Msg := str "forbidden", Data := UploadResponse.zero.Data }

/-- An envelope of a stored file: code 200 and an object key. -/
def stored : UploadResponse :=
  { Code := 200, Msg := [], Data := { ObjectKey := str "2024/a.png", URL := [], FileID := [] } }

/-- A `304 Not Modified` response: no body, nothing decoded. -/
def notModified : Response :=
  { StatusCode := 304, Status := str "304 Not Modified", Body := [], Error := none,
    Result := none }

/-- A bucket name that carries its own `object_key` parameter. -/
def shadowingClient : CubeClient :=
  { sampleClient with
    Config := { sampleClient.Config with DefaultBucketName := str "b&object_key=x" } }

/-- Lowercase ASCII letters. -/
def isLower (b : Byte) : Prop := 97 ≤ b.val ∧ b.val ≤ 122

instance (b : Byte) : Decidable (isLower b) := by unfold isLower; infer_instance

/-- A `404 Not Found` response with a body. -/
def notFound : Response :=
  { StatusCode := 404, Status := str "404 Not Found", Body := str "no such bucket",
    Error := none, Result := none }

/-! ## Facts about the string functions -/

theorem str_slash : str "/" = [byteOf '/'] := by decide

theorem TrimRight_append_replicate (s : GoString) (c : Byte) (n : Nat) :
    TrimRight (s ++ List.replicate n c) [c] = TrimRight s [c] := by
  induction n with
  | zero => simp
  | succ n ih =>
    rw [List.replicate_succ', ← List.append_assoc]
    unfold TrimRight at *
    rw [List.rdropWhile_concat_pos _ _ _ (by simp)]
    exact ih

theorem TrimRight_decompose (s : GoString) (c : Byte) :
    ∃ n, s = TrimRight s [c] ++ List.replicate n c := by
  induction s using List.reverseRecOn with
  | nil => exact ⟨0, by simp [TrimRight]⟩
  | append_singleton l a ih =>
    by_cases h : a = c
    · obtain ⟨n, hn⟩ := ih
      refine ⟨n + 1, ?_⟩
      subst h
      have h1 : TrimRight (l ++ [a]) [a] = TrimRight l [a] := by
        unfold TrimRight
        rw [List.rdropWhile_concat_pos _ _ _ (by simp)]
      rw [h1, List.replicate_succ', ← List.append_assoc, ← hn]
    · refine ⟨0, ?_⟩
      have h1 : TrimRight (l ++ [a]) [c] = l ++ [a] := by
        unfold TrimRight
        rw [List.rdropWhile_concat_neg _ _ _ (by simpa using h)]
      simp [h1]

theorem TrimRight_not_suffix (s : GoString) (c : Byte) : ¬ HasSuffix (TrimRight s [c]) [c] := by
  induction s using List.reverseRecOn with
  | nil => simp [TrimRight, HasSuffix]
  | append_singleton l a ih =>
    by_cases h : a = c
    · subst h
      have h1 : TrimRight (l ++ [a]) [a] = TrimRight l [a] := by
        unfold TrimRight
        rw [List.rdropWhile_concat_pos _ _ _ (by simp)]
      rwa [h1]
    · have h1 : TrimRight (l ++ [a]) [c] = l ++ [a] := by
        unfold TrimRight
        rw [List.rdropWhile_concat_neg _ _ _ (by simpa using h)]
      rw [h1]
      intro hs
      obtain ⟨t, ht⟩ := hs
      have := List.append_inj' ht rfl
      exact h (by simpa using this.2.symm)

theorem TrimRight_initial (s cutset : GoString) : TrimRight s cutset <+: s :=
  List.rdropWhile_prefix _ _

theorem GetFileURL_eq (c : CubeClient) (objectKey : GoString) (thumbnail : Bool) :
    c.GetFileURL objectKey thumbnail =
      TrimRight c.Config.BaseURL (str "/") ++ str "/api/file?bucket=" ++
        c.Config.DefaultBucketName ++ str "&object_key=" ++ QueryEscape objectKey ++
        (if thumbnail then str "&thumbnail=true" else []) := by
  have h : ∀ a b k : GoString,
      Sprintf (str "%s/api/file?bucket=%s&object_key=%s") [.s a, .s b, .s k] =
        a ++ (str "/api/file?bucket=" ++ (b ++ (str "&object_key=" ++ (k ++ [])))) :=
    fun _ _ _ => rfl
  cases thumbnail <;> simp [CubeClient.GetFileURL, h]

/-! ## Facts about escaping -/

theorem unescapeScan_cons (c : Byte) (s : GoString) :
    unescapeScan (c :: s) =
      if c = byteOf '%' then
        match s with
        | a :: b :: rest =>
          if ishex a ∧ ishex b then
            match unescapeScan rest with
            | .ok (n, hasPlus) => .ok (n + 1, hasPlus)
            | .error e => .error e
          else .error [c, a, b]
        | _ => .error (c :: s)
      else if c = byteOf '+' then
        match unescapeScan s with
        | .ok (n, _) => .ok (n, true)
        | .error e => .error e
      else unescapeScan s := by
  rcases s with _ | ⟨a, _ | ⟨b, rest⟩⟩ <;> rfl

theorem unescapeDecode_cons (c : Byte) (s : GoString) :
    unescapeDecode (c :: s) =
      if c = byteOf '%' then
        match s with
        | a :: b :: rest => Fin.ofNat (unhex a * 16 + unhex b) :: unescapeDecode rest
        | _ => []
      else if c = byteOf '+' then byteOf ' ' :: unescapeDecode s
      else c :: unescapeDecode s := by
  rcases s with _ | ⟨a, _ | ⟨b, rest⟩⟩ <;> rfl

set_option maxRecDepth 100000 in
theorem hexDigit_plain (c : Byte) :
    shouldEscape (hexDigit (c.val / 16)) = false ∧ shouldEscape (hexDigit (c.val % 16)) = false ∧
    ishex (hexDigit (c.val / 16)) = true ∧ ishex (hexDigit (c.val % 16)) = true ∧
    (Fin.ofNat (unhex (hexDigit (c.val / 16)) * 16 + unhex (hexDigit (c.val % 16))) : Byte) = c := by
  revert c
  decide

set_option maxRecDepth 100000 in
theorem plain_ne_special (c : Byte) (h : shouldEscape c = false) :
    c ≠ byteOf '%' ∧ c ≠ byteOf '+' ∧ c ≠ byteOf '#' ∧ c ≠ byteOf '&' ∧ c ≠ byteOf ';' ∧
    c ≠ byteOf '?' := by
  revert c
  decide

/-- Every byte `QueryEscape` writes is an unescaped byte, `%` or `+`. -/
theorem QueryEscape_bytes (s : GoString) :
    ∀ b ∈ QueryEscape s, shouldEscape b = false ∨ b = byteOf '%' ∨ b = byteOf '+' := by
  induction s with
  | nil => simp [QueryEscape]
  | cons c s ih =>
    intro b hb
    unfold QueryEscape at hb
    split_ifs at hb with h1 h2
    · rcases List.mem_cons.1 hb with h | h
      · exact Or.inr (Or.inr h)
      · exact ih b h
    · simp only [List.mem_cons] at hb
      rcases hb with h | h | h | h
      · exact Or.inr (Or.inl h)
      · exact Or.inl (h ▸ (hexDigit_plain c).1)
      · exact Or.inl (h ▸ (hexDigit_plain c).2.1)
      · exact ih b h
    · rcases List.mem_cons.1 hb with h | h
      · exact Or.inl (h ▸ (by simpa using h1))
      · exact ih b h

theorem QueryEscape_not_mem (s : GoString) :
    byteOf '#' ∉ QueryEscape s ∧ byteOf '&' ∉ QueryEscape s ∧ byteOf ';' ∉ QueryEscape s ∧
    byteOf '?' ∉ QueryEscape s := by
  refine ⟨?_, ?_, ?_, ?_⟩ <;> intro h <;> rcases QueryEscape_bytes s _ h with h | h | h <;>
    revert h <;> decide

theorem unescapeScan_QueryEscape (s : GoString) : ∃ r, unescapeScan (QueryEscape s) = .ok r := by
  induction s with
  | nil => exact ⟨_, rfl⟩
  | cons c s ih =>
    obtain ⟨⟨n, p⟩, hr⟩ := ih
    unfold QueryEscape
    split_ifs with h1 h2
    · refine ⟨(n, true), ?_⟩
      have e1 : byteOf '+' ≠ byteOf '%' := by decide
      simp [unescapeScan_cons, e1, hr]
    · refine ⟨(n + 1, p), ?_⟩
      simp [unescapeScan_cons, hr, (hexDigit_plain c).2.2.1, (hexDigit_plain c).2.2.2.1]
    · have h3 := plain_ne_special c (by simpa using h1)
      refine ⟨(n, p), ?_⟩
      simp [unescapeScan_cons, h3.1, h3.2.1, hr]

theorem unescapeDecode_QueryEscape (s : GoString) : unescapeDecode (QueryEscape s) = s := by
  induction s with
  | nil => rfl
  | cons c s ih =>
    unfold QueryEscape
    split_ifs with h1 h2
    · have e1 : byteOf '+' ≠ byteOf '%' := by decide
      simp [unescapeDecode_cons, e1, ih, h2]
    · simp [unescapeDecode_cons, ih, (hexDigit_plain c).2.2.2.2]
    · have h3 := plain_ne_special c (by simpa using h1)
      simp [unescapeDecode_cons, h3.1, h3.2.1, ih]

/-- A string without `%` and `+` is its own decoding. -/
theorem unescapeDecode_of_scan (s : GoString) (h : unescapeScan s = .ok (0, false)) :
    unescapeDecode s = s := by
  induction s with
  | nil => rfl
  | cons c s ih =>
    rw [unescapeScan_cons] at h
    split_ifs at h with h1 h2
    · exfalso
      split at h
      · split_ifs at h
        split at h <;> simp at h
      · simp at h
    · exfalso
      split at h <;> simp at h
    · simp [unescapeDecode_cons, h1, h2, ih h]

/-- The round trip of escaping: `QueryUnescape(QueryEscape(s))` is `s`, without
an error. -/
theorem QueryUnescape_QueryEscape (s : GoString) : QueryUnescape (QueryEscape s) = .ok s := by
  obtain ⟨⟨n, p⟩, hr⟩ := unescapeScan_QueryEscape s
  unfold QueryUnescape
  rw [hr]
  simp only
  split_ifs with h
  · obtain ⟨hn, hp⟩ := h
    subst hn hp
    rw [← unescapeDecode_of_scan _ hr, unescapeDecode_QueryEscape]
  · rw [unescapeDecode_QueryEscape]

/-! ## Facts about reading a query string -/

theorem Cut_of_not_mem (sep : Byte) (s : GoString) (h : sep ∉ s) : Cut sep s = (s, [], false) := by
  induction s with
  | nil => rfl
  | cons c s ih =>
    have hc : c ≠ sep := fun e => h (by simp [e])
    have hs : sep ∉ s := fun e => h (by simp [e])
    simp [Cut, hc, ih hs]

theorem Cut_append (sep : Byte) (a b : GoString) (h : sep ∉ a) :
    Cut sep (a ++ sep :: b) = (a, b, true) := by
  induction a with
  | nil => simp [Cut]
  | cons c a ih =>
    have hc : c ≠ sep := fun e => h (by simp [e])
    have hs : sep ∉ a := fun e => h (by simp [e])
    simp [Cut, hc, ih hs]

theorem queryFields_of_not_mem (s : GoString) (h : byteOf '&' ∉ s) : queryFields s = [s] := by
  induction s with
  | nil => rfl
  | cons c s ih =>
    have hc : c ≠ byteOf '&' := fun e => h (by simp [e])
    have hs : byteOf '&' ∉ s := fun e => h (by simp [e])
    simp [queryFields, hc, ih hs]

theorem queryFields_append (a b : GoString) (h : byteOf '&' ∉ a) :
    queryFields (a ++ byteOf '&' :: b) = a :: queryFields b := by
  induction a with
  | nil => simp [queryFields]
  | cons c a ih =>
    have hc : c ≠ byteOf '&' := fun e => h (by simp [e])
    have hs : byteOf '&' ∉ a := fun e => h (by simp [e])
    simp [queryFields, hc, ih hs]

theorem parseFields_cons (field : GoString) (rest : List GoString) :
    parseFields (field :: rest) =
      if byteOf ';' ∈ field then parseFields rest
      else if field = [] then parseFields rest
      else
        match QueryUnescape (Cut (byteOf '=') field).1,
              QueryUnescape (Cut (byteOf '=') field).2.1 with
        | .ok key, .ok value => (key, value) :: parseFields rest
        | _, _ => parseFields rest := by
  rw [parseFields]

/-- A field `bucket=...` adds no `object_key` value. -/
theorem Get_parseFields_bucket (v : GoString) (rest : List GoString) :
    Values.Get (parseFields ((str "bucket" ++ byteOf '=' :: v) :: rest)) (str "object_key") =
      Values.Get (parseFields rest) (str "object_key") := by
  have hcut : Cut (byteOf '=') (str "bucket" ++ byteOf '=' :: v) = (str "bucket", v, true) :=
    Cut_append _ _ _ (by decide)
  have hkey : QueryUnescape (str "bucket") = .ok (str "bucket") := rfl
  have hne : ¬ str "bucket" = str "object_key" := by decide
  rw [parseFields_cons]
  split_ifs with h1 h2
  · rfl
  · rfl
  · rw [hcut]
    simp only [hkey]
    cases hv : QueryUnescape v with
    | error e => rfl
    | ok w => simp [Values.Get, List.find?, hne]

/-- A field `object_key=` followed by an escaped key adds that key. -/
theorem parseFields_object_key (objectKey : GoString) (rest : List GoString) :
    parseFields ((str "object_key" ++ byteOf '=' :: QueryEscape objectKey) :: rest) =
      (str "object_key", objectKey) :: parseFields rest := by
  have hcut : Cut (byteOf '=') (str "object_key" ++ byteOf '=' :: QueryEscape objectKey) =
      (str "object_key", QueryEscape objectKey, true) := Cut_append _ _ _ (by decide)
  have hkey : QueryUnescape (str "object_key") = .ok (str "object_key") := rfl
  have hsemi : byteOf ';' ∉ str "object_key" ++ byteOf '=' :: QueryEscape objectKey := by
    intro h
    rcases List.mem_append.1 h with h | h
    · revert h; decide
    · rcases List.mem_cons.1 h with h | h
      · revert h; decide
      · exact (QueryEscape_not_mem objectKey).2.2.1 h
  have hne : str "object_key" ++ byteOf '=' :: QueryEscape objectKey ≠ [] := by
    intro h
    have := congrArg List.length h
    simp [str] at this
  rw [parseFields_cons, if_neg hsemi, if_neg hne, hcut]
  simp only [hkey, QueryUnescape_QueryEscape]

/-! ## The constructor -/

/-- C3: `GetFileURL(objectKey, thumbnail)` is `B ++ "/api/file?bucket=" ++
DefaultBucketName ++ "&object_key=" ++ QueryEscape(objectKey)`, followed by
`"&thumbnail=true"` when `thumbnail` is set, where `B` is `BaseURL` without its
trailing `/` bytes: `BaseURL` is `B` followed by some number of `/`, `B` does not
end in `/`, and more trailing slashes on `BaseURL` leave the result unchanged. -/
theorem GetFileURL_format (c : CubeClient) (objectKey : GoString) (thumbnail : Bool) :
    ∃ (B : GoString) (n : Nat),
      c.Config.BaseURL = B ++ List.replicate n (byteOf '/') ∧
      ¬ HasSuffix B (str "/") ∧
      c.GetFileURL objectKey thumbnail =
        B ++ str "/api/file?bucket=" ++ c.Config.DefaultBucketName ++ str "&object_key=" ++
          QueryEscape objectKey ++ (if thumbnail then str "&thumbnail=true" else []) ∧
      ∀ m : Nat,
        CubeClient.GetFileURL
          { c with Config :=
              { c.Config with BaseURL := c.Config.BaseURL ++ List.replicate m (byteOf '/') } }
          objectKey thumbnail = c.GetFileURL objectKey thumbnail := by
  obtain ⟨n, hn⟩ := TrimRight_decompose c.Config.BaseURL (byteOf '/')
  refine ⟨TrimRight c.Config.BaseURL (str "/"), n, ?_, ?_, GetFileURL_eq c objectKey thumbnail, ?_⟩
  · rw [str_slash]; exact hn
  · rw [str_slash]; exact TrimRight_not_suffix _ _
  · intro m
    rw [GetFileURL_eq, GetFileURL_eq]
    simp only [str_slash, TrimRight_append_replicate]

/-- C4: `NewCubeClient` returns an error exactly when `cfg` is nil or its
`BaseURL` is empty, and returns no client exactly then; in that case no
transport is created and the supplied transport keeps its settings. -/
theorem NewCubeClient_error_iff (cfg : Option Config) (httpClient : Option RestyClient) :
    ((NewCubeClient cfg httpClient).err ≠ none ↔
        (cfg = none ∨ ∃ c, cfg = some c ∧ c.BaseURL = [])) ∧
    ((NewCubeClient cfg httpClient).client = none ↔
        (cfg = none ∨ ∃ c, cfg = some c ∧ c.BaseURL = [])) ∧
    ((cfg = none ∨ ∃ c, cfg = some c ∧ c.BaseURL = []) →
        (NewCubeClient cfg httpClient).created = 0 ∧
        (NewCubeClient cfg httpClient).httpClient = httpClient) := by
  cases cfg with
  | none => simp [NewCubeClient]
  | some c =>
    by_cases h : c.BaseURL = []
    · simp [NewCubeClient, h]
    · simp [NewCubeClient, h]

theorem NewCubeClient_error_iff_witness :
    (NewCubeClient (some { sampleConfig with BaseURL := [] }) (some resty.New)).created = 0 ∧
    (NewCubeClient (some { sampleConfig with BaseURL := [] }) (some resty.New)).httpClient =
      some resty.New :=
  (NewCubeClient_error_iff (some { sampleConfig with BaseURL := [] }) (some resty.New)).2.2
    (Or.inr ⟨_, rfl, rfl⟩)

/-- C5: when `NewCubeClient` succeeds, the client (and the caller) hold the
input configuration with `Timeout` set to 10 seconds if it was not positive and
unchanged otherwise, every other field as given, and the transport has that
timeout. -/
theorem NewCubeClient_timeout (cfg : Config) (httpClient : Option RestyClient)
    (client : CubeClient) (h : (NewCubeClient (some cfg) httpClient).client = some client) :
    client.Config =
      { cfg with Timeout := if cfg.Timeout ≤ 0 then 10000000000 else cfg.Timeout } ∧
    (client.Config.Enable = cfg.Enable ∧ client.Config.BaseURL = cfg.BaseURL ∧
      client.Config.APIKey = cfg.APIKey ∧
      client.Config.DefaultBucketKey = cfg.DefaultBucketKey ∧
      client.Config.DefaultBucketName = cfg.DefaultBucketName) ∧
    client.Resty.Timeout = client.Config.Timeout ∧
    (NewCubeClient (some cfg) httpClient).cfg = some client.Config := by
  by_cases hb : cfg.BaseURL = []
  · simp [NewCubeClient, hb] at h
  · by_cases ht : cfg.Timeout ≤ 0
    · simp [NewCubeClient, hb, ht] at h ⊢
      subst h
      simp [RestyClient.SetHeader, RestyClient.SetTimeout, Second]
    · simp [NewCubeClient, hb, ht] at h ⊢
      subst h
      simp [RestyClient.SetHeader, RestyClient.SetTimeout]

theorem NewCubeClient_timeout_witness :
    sampleClient.Config =
      { sampleConfig with
        Timeout := if sampleConfig.Timeout ≤ 0 then 10000000000 else sampleConfig.Timeout } ∧
    (sampleClient.Config.Enable = sampleConfig.Enable ∧
      sampleClient.Config.BaseURL = sampleConfig.BaseURL ∧
      sampleClient.Config.APIKey = sampleConfig.APIKey ∧
      sampleClient.Config.DefaultBucketKey = sampleConfig.DefaultBucketKey ∧
      sampleClient.Config.DefaultBucketName = sampleConfig.DefaultBucketName) ∧
    sampleClient.Resty.Timeout = sampleClient.Config.Timeout ∧
    (NewCubeClient (some sampleConfig) none).cfg = some sampleClient.Config :=
  NewCubeClient_timeout sampleConfig none sampleClient (by decide)

/-! ## Upload and delete -/

/-- C6: with an empty `DefaultBucketName`, `UploadFile` returns `""` and an
error, `DeleteFile` returns an error, and neither opens a file nor sends a
request. -/
theorem empty_bucket_no_io (c : CubeClient) (env : Env)
    (localPath location objectKey : GoString) (convertWebp useUuid : Bool)
    (h : c.Config.DefaultBucketName = []) :
    (∃ e, (c.UploadFile env localPath location convertWebp useUuid).1 = ([], some e)) ∧
    (c.UploadFile env localPath location convertWebp useUuid).2 = [] ∧
    (∃ e, (c.DeleteFile env objectKey).1 = some e) ∧
    (c.DeleteFile env objectKey).2 = [] := by
  simp [CubeClient.UploadFile, CubeClient.DeleteFile, h]

theorem empty_bucket_no_io_witness :
    (∃ e, (CubeClient.UploadFile { sampleClient with Config := DefaultConfig }
        (answering (okResponse UploadResponse.zero)) (str "a.png") [] true true).1
          = ([], some e)) ∧
    (CubeClient.UploadFile { sampleClient with Config := DefaultConfig }
        (answering (okResponse UploadResponse.zero)) (str "a.png") [] true true).2 = [] ∧
    (∃ e, (CubeClient.DeleteFile { sampleClient with Config := DefaultConfig }
        (answering (okResponse UploadResponse.zero)) (str "a.png")).1 = some e) ∧
    (CubeClient.DeleteFile { sampleClient with Config := DefaultConfig }
        (answering (okResponse UploadResponse.zero)) (str "a.png")).2 = [] :=
  empty_bucket_no_io { sampleClient with Config := DefaultConfig }
    (answering (okResponse UploadResponse.zero)) (str "a.png") [] (str "a.png") true true rfl

/-- C7: at a `304` response the status is neither a success nor an error for
`resty`, the transport reports no error and decodes nothing, and `UploadFile`
returns the `CubeError` with code `0` and an empty message, read from the
zero-valued `result`, where an HTTP error is due. -/
theorem UploadFile_not_modified :
    notModified.IsSuccess = false ∧
    (sampleClient.UploadFile (answering notModified) (str "a.png") [] false false).1 =
      ([], some (.Cube { Code := 0, Msg := [] })) := by
  decide

/-- The statuses the guard `resp.IsError()` does cover: every response with a
status code of 400 or above, returned without a transport error, makes
`UploadFile` fail with the HTTP error that carries the status text, the status
code and the response body. -/
theorem UploadFile_http_error (c : CubeClient) (env : Env)
    (localPath location file : GoString) (convertWebp useUuid : Bool) (resp : Response)
    (hb : c.Config.DefaultBucketName ≠ []) (ho : env.Open localPath = .ok file)
    (he : env.Execute c.Resty
      (uploadRequest c env localPath location file convertWebp useUuid) = .ok resp)
    (hs : resp.StatusCode ≥ 400) :
    (c.UploadFile env localPath location convertWebp useUuid).1 =
      ([], some (.Errorf (str "cube HTTP 错误: %s (Status: %d). Response Body: %s")
        [.s resp.Status, .d resp.StatusCode, .s resp.Body])) := by
  have h1 : resp.IsError = true := by
    simp only [Response.IsError, decide_eq_true_eq]; omega
  simp [CubeClient.UploadFile, hb, ho, he, h1]

theorem UploadFile_http_error_witness :
    (sampleClient.UploadFile (answering notFound) (str "a.png") [] false false).1 =
      ([], some (.Errorf (str "cube HTTP 错误: %s (Status: %d). Response Body: %s")
        [.s (str "404 Not Found"), .d 404, .s (str "no such bucket")])) :=
  UploadFile_http_error sampleClient (answering notFound) (str "a.png") [] [] false false
    notFound (by decide) rfl rfl (by decide)

/-- C8: when the transport answers with a 2xx response whose body decoded into
an envelope with a code other than 200, `UploadFile` returns `""` with the
`CubeError` of the envelope's code and message, and `DeleteFile` returns that
same `CubeError`. -/
theorem service_error_of_envelope (c : CubeClient) (env : Env)
    (hb : c.Config.DefaultBucketName ≠ []) :
    (∀ (localPath location file : GoString) (convertWebp useUuid : Bool)
        (resp : Response) (result : UploadResponse),
      env.Open localPath = .ok file →
      env.Execute c.Resty
        (uploadRequest c env localPath location file convertWebp useUuid) = .ok resp →
      resp.IsSuccess = true → resp.Error = none → resp.Result = some result →
      result.Code ≠ 200 →
      (c.UploadFile env localPath location convertWebp useUuid).1 =
        ([], some (.Cube { Code := result.Code, Msg := result.Msg }))) ∧
    (∀ (objectKey : GoString) (resp : Response) (result : UploadResponse),
      env.Execute c.Resty (deleteRequest c objectKey) = .ok resp →
      resp.IsSuccess = true → resp.Error = none → resp.Result = some result →
      result.Code ≠ 200 →
      (c.DeleteFile env objectKey).1 =
        some (.Cube { Code := result.Code, Msg := result.Msg })) := by
  have hne : ∀ resp : Response, resp.IsSuccess = true → resp.IsError = false := by
    intro resp hs
    simp only [Response.IsSuccess, Bool.and_eq_true, decide_eq_true_eq] at hs
    simp only [Response.IsError, decide_eq_false_iff_not]; omega
  constructor
  · intro localPath location file convertWebp useUuid resp result ho he hs hp hr hc
    simp [CubeClient.UploadFile, hb, ho, he, hne resp hs, hp, hr, hc, NewCubeError]
  · intro objectKey resp result he hs _ hr hc
    simp [CubeClient.DeleteFile, hb, he, hne resp hs, hr, hc, NewCubeError]

theorem service_error_of_envelope_witness :
    (sampleClient.UploadFile (answering (okResponse forbidden))
        (str "a.png") [] false false).1 =
      ([], some (.Cube { Code := 403, Msg := str "forbidden" })) ∧
    (sampleClient.DeleteFile (answering (okResponse forbidden)) (str "k")).1 =
      some (.Cube { Code := 403, Msg := str "forbidden" }) :=
  ⟨(service_error_of_envelope sampleClient (answering (okResponse forbidden)) (by decide)).1
      (str "a.png") [] [] false false _ _ rfl rfl rfl rfl rfl (by decide),
   (service_error_of_envelope sampleClient (answering (okResponse forbidden)) (by decide)).2
      (str "k") _ _ rfl rfl rfl rfl (by decide)⟩

/-- C9: when the transport answers with a 2xx response whose body decoded into
an envelope with code 200, `UploadFile` returns the envelope's object key and no
error if that key is not empty, and `""` with the `CubeError` of code 200500 if
it is; and on every call, a nil error comes with a non-empty object key. -/
theorem UploadFile_code_200 (c : CubeClient) (env : Env)
    (localPath location file : GoString) (convertWebp useUuid : Bool)
    (resp : Response) (result : UploadResponse)
    (hb : c.Config.DefaultBucketName ≠ []) (ho : env.Open localPath = .ok file)
    (he : env.Execute c.Resty
      (uploadRequest c env localPath location file convertWebp useUuid) = .ok resp)
    (hs : resp.IsSuccess = true) (hp : resp.Error = none) (hr : resp.Result = some result)
    (hc : result.Code = 200) :
    (result.Data.ObjectKey ≠ [] →
      (c.UploadFile env localPath location convertWebp useUuid).1 =
        (result.Data.ObjectKey, none)) ∧
    (result.Data.ObjectKey = [] →
      ∃ msg, (c.UploadFile env localPath location convertWebp useUuid).1 =
        ([], some (.Cube { Code := 200500, Msg := msg }))) ∧
    (∀ (c2 : CubeClient) (env2 : Env) (path2 location2 : GoString) (w u : Bool),
      (c2.UploadFile env2 path2 location2 w u).1.2 = none →
        (c2.UploadFile env2 path2 location2 w u).1.1 ≠ []) := by
  have h1 : resp.IsError = false := by
    simp only [Response.IsSuccess, Bool.and_eq_true, decide_eq_true_eq] at hs
    simp only [Response.IsError, decide_eq_false_iff_not]; omega
  refine ⟨?_, ?_, ?_⟩
  · intro hk
    simp [CubeClient.UploadFile, hb, ho, he, h1, hp, hr, hc, hk]
  · intro hk
    simp [CubeClient.UploadFile, hb, ho, he, h1, hp, hr, hc, hk, NewCubeError]
  · intro c2 env2 path2 location2 w u
    unfold CubeClient.UploadFile
    simp only
    split_ifs with g1
    · simp
    · split
      · simp
      · split
        · simp
        · split_ifs <;> simp_all

theorem UploadFile_code_200_witness :
    (sampleClient.UploadFile
        (answering (okResponse stored))
        (str "a.png") [] false false).1 = (str "2024/a.png", none) :=
  (UploadFile_code_200 sampleClient
    (answering (okResponse stored))
    (str "a.png") [] [] false false _ _
    (by decide) rfl rfl rfl rfl rfl rfl).1 (by decide)

theorem Sprintf_bool (v : Bool) :
    Sprintf (str "%v") [.b v] = if v then str "true" else str "false" := by
  cases v <;> rfl

theorem StringMap.get_nil (key : GoString) : StringMap.get [] key = none := rfl

theorem StringMap.get_cons (k v key : GoString) (m : StringMap) :
    StringMap.get ((k, v) :: m) key = if key = k then some v else StringMap.get m key := by
  by_cases h : key = k
  · subst h
    simp [StringMap.get, List.find?]
  · have h2 : ¬ k = key := fun e => h e.symm
    simp [StringMap.get, List.find?, h, h2]

theorem uploadForm_eq (bucketName location : GoString) (convertWebp useUuid : Bool) :
    uploadForm bucketName location convertWebp useUuid =
      [(str "bucket", bucketName),
       (str "convert_webp", if convertWebp then str "true" else str "false"),
       (str "use_uuid", if useUuid then str "true" else str "false")] ++
      (if location = [] then [] else [(str "location", location)]) := by
  unfold uploadForm
  simp only [Sprintf_bool]
  by_cases h : location = []
  · simp [h]
  · simp only [h, ne_eq, not_false_eq_true, if_true, if_false]
    rfl

/-- C10: an `UploadFile` call with a non-empty bucket name whose file opens
sends exactly one request, between opening and closing the file, and the form
of that request holds `bucket` = the default bucket name, `convert_webp` and
`use_uuid` = `"true"` or `"false"` after the flags, `location` = the argument
when it is not empty, and no other key (no `location` when it is empty). -/
theorem UploadFile_form (c : CubeClient) (env : Env)
    (localPath location file : GoString) (convertWebp useUuid : Bool)
    (hb : c.Config.DefaultBucketName ≠ []) (ho : env.Open localPath = .ok file) :
    ∃ req : Request,
      (c.UploadFile env localPath location convertWebp useUuid).2 =
        [Event.Open localPath, Event.Execute req, Event.Close localPath] ∧
      req.FormData.map (fun p => p.1) =
        [str "bucket", str "convert_webp", str "use_uuid"] ++
          (if location = [] then [] else [str "location"]) ∧
      ∀ key : GoString, req.FormData.get key =
        if key = str "bucket" then some c.Config.DefaultBucketName
        else if key = str "convert_webp" then
          some (if convertWebp then str "true" else str "false")
        else if key = str "use_uuid" then some (if useUuid then str "true" else str "false")
        else if key = str "location" ∧ location ≠ [] then some location
        else none := by
  refine ⟨uploadRequest c env localPath location file convertWebp useUuid, ?_, ?_, ?_⟩
  · unfold CubeClient.UploadFile
    simp only [hb, if_false, ho]
    split
    · rfl
    · split_ifs <;> rfl
  · simp only [uploadRequest, uploadForm_eq]
    by_cases h : location = [] <;> simp [h]
  · intro key
    simp only [uploadRequest, uploadForm_eq]
    by_cases h : location = []
    · simp only [h, if_true, List.append_nil, StringMap.get_cons, StringMap.get_nil]
      simp
    · simp only [h, if_false, List.cons_append, List.nil_append, StringMap.get_cons,
        StringMap.get_nil, ne_eq, not_false_eq_true, and_true]

theorem UploadFile_form_witness :
    ∃ req : Request,
      (sampleClient.UploadFile (answering (okResponse stored)) (str "a.png") (str "x")
        true false).2 =
        [Event.Open (str "a.png"), Event.Execute req, Event.Close (str "a.png")] ∧
      req.FormData.map (fun p => p.1) =
        [str "bucket", str "convert_webp", str "use_uuid"] ++
          (if str "x" = [] then [] else [str "location"]) ∧
      ∀ key : GoString, req.FormData.get key =
        if key = str "bucket" then some sampleClient.Config.DefaultBucketName
        else if key = str "convert_webp" then some (if true then str "true" else str "false")
        else if key = str "use_uuid" then some (if false then str "true" else str "false")
        else if key = str "location" ∧ str "x" ≠ [] then some (str "x")
        else none :=
  UploadFile_form sampleClient (answering (okResponse stored)) (str "a.png") (str "x") []
    true false (by decide) rfl

/-! ## The file URL -/

theorem GetFileURL_split (c : CubeClient) (objectKey : GoString) (thumbnail : Bool) :
    c.GetFileURL objectKey thumbnail =
      (TrimRight c.Config.BaseURL (str "/") ++ str "/api/file") ++ byteOf '?' ::
        ((str "bucket" ++ byteOf '=' :: c.Config.DefaultBucketName) ++ byteOf '&' ::
          ((str "object_key" ++ byteOf '=' :: QueryEscape objectKey) ++
            (if thumbnail then byteOf '&' :: str "thumbnail=true" else []))) := by
  have e1 : str "/api/file?bucket=" =
      str "/api/file" ++ byteOf '?' :: (str "bucket" ++ [byteOf '=']) := by decide
  have e2 : str "&object_key=" = byteOf '&' :: (str "object_key" ++ [byteOf '=']) := by decide
  have e3 : str "&thumbnail=true" = byteOf '&' :: str "thumbnail=true" := by decide
  rw [GetFileURL_eq, e1, e2, e3]
  cases thumbnail <;> simp [List.append_assoc]

/-- C1 fails for the bucket name `b&object_key=x`: the URL of the key `k` reads
back the `object_key` value `x`. -/
theorem GetFileURL_roundtrip_fails :
    Values.Get (ParseQuery (RawQuery (shadowingClient.GetFileURL (str "k") false)))
      (str "object_key") ≠ str "k" := by
  decide

/-- C1, amended: when `BaseURL` has no `?` and no `#` and `DefaultBucketName` has
no `&` and no `#`, the `object_key` parameter read from the query string of
`GetFileURL(objectKey, thumbnail)` is `objectKey`. -/
theorem GetFileURL_roundtrip (c : CubeClient) (objectKey : GoString) (thumbnail : Bool)
    (h1 : byteOf '?' ∉ c.Config.BaseURL) (h2 : byteOf '#' ∉ c.Config.BaseURL)
    (h3 : byteOf '&' ∉ c.Config.DefaultBucketName)
    (h4 : byteOf '#' ∉ c.Config.DefaultBucketName) :
    Values.Get (ParseQuery (RawQuery (c.GetFileURL objectKey thumbnail))) (str "object_key") =
      objectKey := by
  have hB : ∀ x, x ∉ c.Config.BaseURL → x ∉ TrimRight c.Config.BaseURL (str "/") :=
    fun x hx h => hx ((TrimRight_initial _ _).subset h)
  have hE := QueryEscape_not_mem objectKey
  have hT : byteOf '#' ∉ (if thumbnail then byteOf '&' :: str "thumbnail=true" else []) := by
    cases thumbnail <;> decide
  have hf1 : byteOf '&' ∉ str "bucket" ++ byteOf '=' :: c.Config.DefaultBucketName := by
    intro h
    rcases List.mem_append.1 h with h | h
    · revert h; decide
    · rcases List.mem_cons.1 h with h | h
      · revert h; decide
      · exact h3 h
  have hf2 : byteOf '&' ∉ str "object_key" ++ byteOf '=' :: QueryEscape objectKey := by
    intro h
    rcases List.mem_append.1 h with h | h
    · revert h; decide
    · rcases List.mem_cons.1 h with h | h
      · revert h; decide
      · exact hE.2.1 h
  have hhash : byteOf '#' ∉ c.GetFileURL objectKey thumbnail := by
    rw [GetFileURL_split]
    intro h
    simp only [List.mem_append, List.mem_cons] at h
    rcases h with (h | h) | h | (h | h | h) | h | (h | h | h) | h
    · exact hB _ h2 h
    · revert h; decide
    · revert h; decide
    · revert h; decide
    · revert h; decide
    · exact h4 h
    · revert h; decide
    · revert h; decide
    · revert h; decide
    · exact hE.1 h
    · exact hT h
  have hquest : byteOf '?' ∉ TrimRight c.Config.BaseURL (str "/") ++ str "/api/file" := by
    intro h
    rcases List.mem_append.1 h with h | h
    · exact hB _ h1 h
    · revert h; decide
  have hraw : RawQuery (c.GetFileURL objectKey thumbnail) =
      (str "bucket" ++ byteOf '=' :: c.Config.DefaultBucketName) ++ byteOf '&' ::
        ((str "object_key" ++ byteOf '=' :: QueryEscape objectKey) ++
          (if thumbnail then byteOf '&' :: str "thumbnail=true" else [])) := by
    unfold RawQuery
    rw [Cut_of_not_mem _ _ hhash, GetFileURL_split]
    simp only
    rw [Cut_append _ _ _ hquest]
  rw [hraw]
  unfold ParseQuery
  rw [queryFields_append _ _ hf1, Get_parseFields_bucket]
  cases thumbnail
  · simp only [Bool.false_eq_true, if_false, List.append_nil]
    rw [queryFields_of_not_mem _ hf2, parseFields_object_key]
    simp [Values.Get, List.find?]
  · simp only [if_true]
    rw [queryFields_append _ _ hf2, parseFields_object_key]
    simp [Values.Get, List.find?]

theorem GetFileURL_roundtrip_witness :
    Values.Get (ParseQuery (RawQuery (sampleClient.GetFileURL (str "a b/c&d=é.png") true)))
      (str "object_key") = str "a b/c&d=é.png" :=
  GetFileURL_roundtrip sampleClient (str "a b/c&d=é.png") true
    (by decide) (by decide) (by decide) (by decide)

/-! ## Where `thumbnail` can occur in a file URL -/

/-- A text without the byte `sep` occurs in `l ++ sep :: r` only inside `l` or
inside `r`. -/
theorem infix_sep_iff (p l r : GoString) (sep : Byte) (hs : sep ∉ p) :
    p <:+: l ++ sep :: r ↔ p <:+: l ∨ p <:+: r := by
  constructor
  · rintro ⟨a, b, h⟩
    rcases List.append_eq_append_iff.1 h with ⟨a2, h5, h6⟩ | ⟨c2, h5, h6⟩
    · exact Or.inl ⟨a, a2, h5.symm⟩
    · rcases c2 with _ | ⟨x, c3⟩
      · exact Or.inl ⟨a, [], by simpa using h5⟩
      · simp only [List.cons_append, List.cons.injEq] at h6
        obtain ⟨h7, h8⟩ := h6
        subst h7
        rcases List.append_eq_append_iff.1 h5 with ⟨a3, _, h10⟩ | ⟨c4, h9, h10⟩
        · exact absurd (by rw [h10]; simp) hs
        · rcases c4 with _ | ⟨y, c5⟩
          · exact absurd (by rw [← List.nil_append p, ← h10]; simp) hs
          · simp only [List.cons_append, List.cons.injEq] at h10
            exact Or.inr ⟨c5, b, by rw [h8, h10.2]⟩
  · rintro (h | h)
    · exact h.trans (List.infix_append' [] l (sep :: r))
    · exact h.trans ((List.suffix_cons sep r).isInfix.trans (List.suffix_append l _).isInfix)

theorem not_infix_replicate (p : GoString) (sep : Byte) (n : Nat) (hs : sep ∉ p) (hp : p ≠ []) :
    ¬ p <:+: List.replicate n sep := by
  intro h
  rcases p with _ | ⟨x, p⟩
  · exact hp rfl
  · have hx : x ∈ List.replicate n sep := h.subset (by simp)
    exact hs (by rw [← List.eq_of_mem_replicate hx]; simp)

set_option maxRecDepth 100000 in
theorem isLower_facts (b : Byte) (h : isLower b) :
    shouldEscape b = false ∧ b ≠ byteOf '%' ∧ b ≠ byteOf '+' ∧
    ∀ c : Byte, b ≠ hexDigit (c.val / 16) ∧ b ≠ hexDigit (c.val % 16) := by
  revert b
  decide

theorem QueryEscape_append (a b : GoString) :
    QueryEscape (a ++ b) = QueryEscape a ++ QueryEscape b := by
  induction a with
  | nil => rfl
  | cons c a ih =>
    simp only [List.cons_append, QueryEscape]
    split_ifs <;> simp [ih]

theorem QueryEscape_lower (p : GoString) (hp : ∀ b ∈ p, isLower b) : QueryEscape p = p := by
  induction p with
  | nil => rfl
  | cons c p ih =>
    have h1 := (isLower_facts c (hp c (by simp))).1
    simp [QueryEscape, h1, ih (fun b hb => hp b (by simp [hb]))]

theorem prefix_of_prefix_QueryEscape (p : GoString) (hp : ∀ b ∈ p, isLower b) :
    ∀ key : GoString, p <+: QueryEscape key → p <+: key := by
  induction p with
  | nil => intro key _; exact List.nil_prefix
  | cons a p ih =>
    intro key h
    have ha := isLower_facts a (hp a (by simp))
    rcases key with _ | ⟨c, cs⟩
    · simp [QueryEscape] at h
    · unfold QueryEscape at h
      split_ifs at h with h1 h2
      · exact absurd (List.cons_prefix_cons.1 h).1 ha.2.2.1
      · exact absurd (List.cons_prefix_cons.1 h).1 ha.2.1
      · obtain ⟨h3, h4⟩ := List.cons_prefix_cons.1 h
        exact List.cons_prefix_cons.2 ⟨h3, ih (fun b hb => hp b (by simp [hb])) cs h4⟩

/-- A text of lowercase letters occurs in `QueryEscape(key)` exactly when it
occurs in `key`. -/
theorem infix_QueryEscape_iff (p key : GoString) (hp : ∀ b ∈ p, isLower b) :
    p <:+: QueryEscape key ↔ p <:+: key := by
  constructor
  · rcases p with _ | ⟨a, p⟩
    · intro _; exact List.nil_infix
    · have ha := isLower_facts a (hp a (by simp))
      induction key with
      | nil => intro h; simp [QueryEscape] at h
      | cons c cs ih =>
        intro h
        unfold QueryEscape at h
        split_ifs at h with h1 h2
        · rcases List.infix_cons_iff.1 h with h | h
          · exact absurd (List.cons_prefix_cons.1 h).1 ha.2.2.1
          · exact List.infix_cons (ih h)
        · rcases List.infix_cons_iff.1 h with h | h
          · exact absurd (List.cons_prefix_cons.1 h).1 ha.2.1
          · rcases List.infix_cons_iff.1 h with h | h
            · exact absurd (List.cons_prefix_cons.1 h).1 (ha.2.2.2 c).1
            · rcases List.infix_cons_iff.1 h with h | h
              · exact absurd (List.cons_prefix_cons.1 h).1 (ha.2.2.2 c).2
              · exact List.infix_cons (ih h)
        · rcases List.infix_cons_iff.1 h with h | h
          · have h5 : a :: p <+: QueryEscape (c :: cs) := by
              rw [QueryEscape, if_neg h1]; exact h
            exact (prefix_of_prefix_QueryEscape _ hp _ h5).isInfix
          · exact List.infix_cons (ih h)
  · rintro ⟨a, b, h⟩
    refine ⟨QueryEscape a, QueryEscape b, ?_⟩
    rw [← h, QueryEscape_append, QueryEscape_append, QueryEscape_lower p hp]

set_option maxRecDepth 100000 in
theorem thumbnail_lower : ∀ b ∈ str "thumbnail", isLower b := by decide

set_option maxRecDepth 100000 in
/-- C2 fails for the object key `thumbnail.png`: its URL without the thumbnail
flag contains `thumbnail`. -/
theorem GetFileURL_thumbnail_fails :
    ¬ (Contains (sampleClient.GetFileURL (str "thumbnail.png") true) (str "&thumbnail=true") ∧
       ¬ Contains (sampleClient.GetFileURL (str "thumbnail.png") false) (str "thumbnail")) := by
  unfold Contains
  decide

/-- C2, amended: `GetFileURL(objectKey, true)` ends with `&thumbnail=true`, and
is `GetFileURL(objectKey, false)` followed by it; `GetFileURL(objectKey, false)`
contains `thumbnail` exactly when `BaseURL`, `DefaultBucketName` or `objectKey`
contains it. -/
theorem GetFileURL_thumbnail (c : CubeClient) (objectKey : GoString) :
    Contains (c.GetFileURL objectKey true) (str "&thumbnail=true") ∧
    HasSuffix (c.GetFileURL objectKey true) (str "&thumbnail=true") ∧
    c.GetFileURL objectKey true = c.GetFileURL objectKey false ++ str "&thumbnail=true" ∧
    (Contains (c.GetFileURL objectKey false) (str "thumbnail") ↔
      Contains c.Config.BaseURL (str "thumbnail") ∨
      Contains c.Config.DefaultBucketName (str "thumbnail") ∨
      Contains objectKey (str "thumbnail")) := by
  have e0 : c.GetFileURL objectKey true =
      c.GetFileURL objectKey false ++ str "&thumbnail=true" := by
    simp [GetFileURL_eq]
  refine ⟨?_, ?_, e0, ?_⟩
  · rw [e0]; exact List.infix_append' _ _ []
  · rw [e0]; exact List.suffix_append _ _
  · have e1 : str "/api/file?bucket=" = byteOf '/' :: (str "api/file?bucket" ++ [byteOf '=']) := by
      decide
    have e2 : str "&object_key=" = byteOf '&' :: (str "object_key" ++ [byteOf '=']) := by decide
    have e3 : c.GetFileURL objectKey false =
        TrimRight c.Config.BaseURL (str "/") ++ byteOf '/' ::
          (str "api/file?bucket" ++ byteOf '=' ::
            (c.Config.DefaultBucketName ++ byteOf '&' ::
              (str "object_key" ++ byteOf '=' :: QueryEscape objectKey))) := by
      rw [GetFileURL_eq, e1, e2]
      simp [List.append_assoc]
    have n1 : ¬ str "thumbnail" <:+: str "api/file?bucket" := by decide
    have n2 : ¬ str "thumbnail" <:+: str "object_key" := by decide
    have hbase : str "thumbnail" <:+: TrimRight c.Config.BaseURL (str "/") ↔
        str "thumbnail" <:+: c.Config.BaseURL := by
      constructor
      · exact fun h => h.trans (TrimRight_initial _ _).isInfix
      · intro h
        obtain ⟨n, hn⟩ := TrimRight_decompose c.Config.BaseURL (byteOf '/')
        rw [str_slash]
        generalize TrimRight c.Config.BaseURL [byteOf '/'] = B at hn ⊢
        rw [hn] at h
        rcases n with _ | n
        · simpa using h
        · rw [List.replicate_succ, infix_sep_iff _ _ _ _ (by decide)] at h
          rcases h with h | h
          · exact h
          · exact absurd h (not_infix_replicate _ _ _ (by decide) (by decide))
    unfold Contains
    rw [e3, infix_sep_iff _ _ _ _ (by decide), infix_sep_iff _ _ _ _ (by decide),
      infix_sep_iff _ _ _ _ (by decide), infix_sep_iff _ _ _ _ (by decide),
      infix_QueryEscape_iff _ _ thumbnail_lower, hbase]
    simp only [n1, n2, false_or]

end Cube
